import Mathlib

/-!
Verification of the TypeDoc-to-IR converter core (`sphinx_js/typedoc.py`)
of the sphinx-js fork: a shallow embedding of its data model, path
computation, destructuring, rendering, conversion, suffix lookup and
diagnostic narrowing, together with theorems settling the specified
behavioural claims.

Conventions of the embedding:
  * Python exceptions (`assert`, `IndexError`, `KeyError`/`TypeError`) are
    modelled with `Except RErr`.
  * Generator pipelines (`yield` chains) are modelled as functions
    producing the fully materialised fragment list, which is what
    `render_name` (`list(self._render_name(converter))`) observes.
  * Recursion through the node/type tree is made total with an explicit
    fuel parameter; exhausted fuel is the distinguished error
    `RErr.outOfFuel`, never confused with a Python-level failure.
  * In-place mutations of the raw tree (`first_sig.sources = ...`,
    `child.signatures[0].typeParameter = ...`, the renamings inside
    `Signature.to_ir`) are modelled as functional updates performed at the
    same program points.
-/

namespace SphinxJs

/-- Python `Source` model: one source-file record (`fileName`, `line`). -/
structure SourceRec where
  fileName : String
  line : Int
deriving DecidableEq, Repr

/-- Discriminator of `DescriptionItem.kind`: `Literal["text", "code"]`. -/
inductive DescKind where
  | text
  | code
deriving DecidableEq, Repr

/-- Python `DescriptionItem` model: a comment fragment. -/
structure DescriptionItem where
  kind : DescKind
  text : String
deriving DecidableEq, Repr

/-- Python `Tag` model: one block tag of a comment. -/
structure Tag where
  tag : String
  content : List DescriptionItem
deriving DecidableEq, Repr

/-- Python `Comment` model.  The Python class also stores a derived `tags`
mapping, built in `__init__` purely from `blockTags` (keyed by the tag
name with a leading `@` removed); we keep only the primary fields and
recompute the mapping on demand (`tagContents`).  Equality of two
comments with equal primary fields agrees with pydantic equality. -/
structure Comment where
  summary : List DescriptionItem := []
  blockTags : List Tag := []
deriving DecidableEq, Repr

/-- Python `Flags` model. -/
structure Flags where
  isAbstract : Bool := false
  isOptional : Bool := false
  isPrivate : Bool := false
  isRest : Bool := false
  isStatic : Bool := false
deriving DecidableEq, Repr

/-- Python `MemberProperties` (TypedDict).  The Python default for
`Signature.parent_member_properties` is an (ill-typed) empty dict whose
splat contributes nothing; we model that default as all-false flags. -/
structure MemberProperties where
  is_abstract : Bool := false
  is_optional : Bool := false
  is_static : Bool := false
  is_private : Bool := false
deriving DecidableEq, Repr

/-- Python `Target` model: an external reference target. -/
structure Target where
  sourceFileName : String
  qualifiedName : String
deriving DecidableEq, Repr

/-- Python `ReferenceType.target : int | Target | None`, with `None` as
`Option.none` around this sum. -/
inductive RefTarget where
  | id (n : Int)
  | ext (t : Target)
deriving DecidableEq, Repr

/-- Python `Callable.kindString : Literal["Constructor", "Method", "Function"]`. -/
inductive CallableKind where
  | constructor
  | method
  | function
deriving DecidableEq, Repr

/-- Python `Member.kindString : Literal["Property", "Variable"]`. -/
inductive MemberKind where
  | property
  | variable
deriving DecidableEq, Repr

/-- Python `Signature.kindString` discriminator. -/
inductive SigKind where
  | constructorSig
  | callSig
  | getSig
  | setSig
  | indexSig
deriving DecidableEq, Repr

/-- The fields shared by all nodes through `Base` and
`TopLevelProperties`: identifier, name, comment, flags, source records,
the filename and path filled in by the indexer, and the original name. -/
structure NodeInfo where
  id : Option Int := none
  name : String := ""
  comment : Comment := {}
  flags : Flags := {}
  sources : List SourceRec := []
  filename : String := ""
  path : List String := []
  originalName : String := ""
deriving DecidableEq, Repr

/-- Python `LiteralType.value : Any` as it occurs in TypeDoc JSON. -/
inductive LitValue where
  | nullV
  | intV (n : Int)
  | boolV (b : Bool)
  | strV (s : String)
deriving DecidableEq, Repr

mutual

/-- The `Node` discriminated union of `typedoc.py` (plus the class and
interface refinements of `ClassOrInterface`).  `children` lists are the
structural `children` field; kind-specific payloads follow the source
classes. -/
inductive Node where
  | accessor (info : NodeInfo) (children : List Node)
      (getSignature : Option Signature) (setSignature : Option Signature)
  | callable (info : NodeInfo) (kind : CallableKind) (children : List Node)
      (signatures : List Signature)
  | classNode (info : NodeInfo) (children : List Node)
      (extendedTypes : List TypeD) (implementedTypes : List TypeD)
      (typeParameter : List TypeParameter) (typeParameters : List TypeParameter)
  | interfaceNode (info : NodeInfo) (children : List Node)
      (extendedTypes : List TypeD) (implementedTypes : List TypeD)
      (typeParameter : List TypeParameter) (typeParameters : List TypeParameter)
  | member (info : NodeInfo) (kind : MemberKind) (children : List Node)
      (type : TypeD)
  | externalModule (info : NodeInfo) (children : List Node)
  | typeLiteral (info : NodeInfo) (children : List Node)
      (signatures : List Signature) (indexSignature : Option Signature)
  | otherNode (info : NodeInfo) (kindString : String) (children : List Node)

/-- Python `Signature` model (`Constructor/Call/Get/Set/Index signature`).
`type` is the return type; `inheritedFrom : Any = None` is modelled by
presence. -/
inductive Signature where
  | mk (info : NodeInfo) (kind : SigKind)
      (typeParameter : List TypeParameter) (typeParameters : List TypeParameter)
      (parameters : List Param) (type : TypeD)
      (inheritedFrom : Option Unit)
      (parentMemberProperties : MemberProperties)
      (children : List Node)

/-- Python `Param` model (kindString `"Parameter"`), fields in source order. -/
inductive Param where
  | mk (comment : Comment) (defaultValue : Option String) (flags : Flags)
      (name : String) (type : TypeD)

/-- Python `TypeParameter` model (kindString `"Type parameter"`). -/
inductive TypeParameter where
  | mk (name : String) (type : Option TypeD) (comment : Comment)

/-- The `Type` union of `typedoc.py`, discriminated on `type`.  Every
variant carries `typeArguments` (from `TypeBase`). -/
inductive TypeD where
  | andOr (typeArguments : List TypeD) (isUnion : Bool) (types : List TypeD)
  | array (typeArguments : List TypeD) (elementType : TypeD)
  | operator (typeArguments : List TypeD) (operator : String) (target : TypeD)
  | intrinsic (typeArguments : List TypeD) (name : String)
  | reference (typeArguments : List TypeD) (name : String)
      (target : Option RefTarget) (package : Option String)
      (refersToTypeParameter : Bool)
  | reflection (typeArguments : List TypeD) (declaration : Node)
  | literal (typeArguments : List TypeD) (value : LitValue)
  | tuple (typeArguments : List TypeD) (elements : List TypeD)
  | indexedAccess (typeArguments : List TypeD)
  | unknown (typeArguments : List TypeD) (name : String)
  | predicate (typeArguments : List TypeD) (name : String) (targetType : TypeD)

end

def Signature.info : Signature → NodeInfo
  | .mk i _ _ _ _ _ _ _ _ => i

def Signature.kind : Signature → SigKind
  | .mk _ k _ _ _ _ _ _ _ => k

def Signature.typeParameter : Signature → List TypeParameter
  | .mk _ _ tp _ _ _ _ _ _ => tp

def Signature.typeParameters : Signature → List TypeParameter
  | .mk _ _ _ tps _ _ _ _ _ => tps

def Signature.parameters : Signature → List Param
  | .mk _ _ _ _ ps _ _ _ _ => ps

def Signature.type : Signature → TypeD
  | .mk _ _ _ _ _ t _ _ _ => t

def Signature.inheritedFrom : Signature → Option Unit
  | .mk _ _ _ _ _ _ ih _ _ => ih

def Signature.parentMemberProperties : Signature → MemberProperties
  | .mk _ _ _ _ _ _ _ pmp _ => pmp

def Signature.children : Signature → List Node
  | .mk _ _ _ _ _ _ _ _ ch => ch

def Signature.comment (s : Signature) : Comment := s.info.comment

def Signature.name (s : Signature) : String := s.info.name

def Signature.path (s : Signature) : List String := s.info.path

/-- The mutation `first_sig.sources = self.sources` in `callable_to_ir`. -/
def Signature.setSources (s : Signature) (srcs : List SourceRec) : Signature :=
  match s with
  | .mk i k tp tps ps t ih pmp ch =>
      .mk { i with sources := srcs } k tp tps ps t ih pmp ch

/-- The mutation `child.signatures[0].typeParameter = ...` in
`_constructor_and_members`. -/
def Signature.setTypeParameter (s : Signature) (tp : List TypeParameter) : Signature :=
  match s with
  | .mk i k _ tps ps t ih pmp ch => .mk i k tp tps ps t ih pmp ch

def Param.comment : Param → Comment
  | .mk c _ _ _ _ => c

def Param.defaultValue : Param → Option String
  | .mk _ d _ _ _ => d

def Param.flags : Param → Flags
  | .mk _ _ f _ _ => f

def Param.name : Param → String
  | .mk _ _ _ n _ => n

def Param.type : Param → TypeD
  | .mk _ _ _ _ t => t

def TypeParameter.name : TypeParameter → String
  | .mk n _ _ => n

def TypeParameter.type : TypeParameter → Option TypeD
  | .mk _ t _ => t

def TypeParameter.comment : TypeParameter → Comment
  | .mk _ _ c => c

def TypeD.typeArguments : TypeD → List TypeD
  | .andOr ta _ _ => ta
  | .array ta _ => ta
  | .operator ta _ _ => ta
  | .intrinsic ta _ => ta
  | .reference ta _ _ _ _ => ta
  | .reflection ta _ => ta
  | .literal ta _ => ta
  | .tuple ta _ => ta
  | .indexedAccess ta => ta
  | .unknown ta _ => ta
  | .predicate ta _ _ => ta

def Node.info : Node → NodeInfo
  | .accessor i _ _ _ => i
  | .callable i _ _ _ => i
  | .classNode i _ _ _ _ _ => i
  | .interfaceNode i _ _ _ _ _ => i
  | .member i _ _ _ => i
  | .externalModule i _ => i
  | .typeLiteral i _ _ _ => i
  | .otherNode i _ _ => i

def Node.children : Node → List Node
  | .accessor _ ch _ _ => ch
  | .callable _ _ ch _ => ch
  | .classNode _ ch _ _ _ _ => ch
  | .interfaceNode _ ch _ _ _ _ => ch
  | .member _ _ ch _ => ch
  | .externalModule _ ch => ch
  | .typeLiteral _ ch _ _ => ch
  | .otherNode _ _ ch => ch

/-- Python `kindString` of a node, as dispatched on in the source. -/
def Node.kindString : Node → String
  | .accessor .. => "Accessor"
  | .callable _ .constructor _ _ => "Constructor"
  | .callable _ .method _ _ => "Method"
  | .callable _ .function _ _ => "Function"
  | .classNode .. => "Class"
  | .interfaceNode .. => "Interface"
  | .member _ .property _ _ => "Property"
  | .member _ .variable _ _ => "Variable"
  | .externalModule .. => "Module"
  | .typeLiteral .. => "Type literal"
  | .otherNode _ k _ => k

/-! ## Errors

Python-level failure modes of the conversion/rendering code, plus the
distinguished fuel marker of the embedding. -/

inductive RErr where
  /-- The recursion fuel of the embedding ran out (no Python analogue). -/
  | outOfFuel
  /-- A failing `assert` statement (`AssertionError`). -/
  | assertFail
  /-- An out-of-range sequence subscript (`IndexError`). -/
  | indexError
  /-- A missing dictionary key (`KeyError`), e.g. `converter.index[...]`. -/
  | keyError
  /-- A branch that the source's static types rule out (pydantic would
  have rejected the input); kept explicit rather than panicking. -/
  | typeError
deriving DecidableEq, Repr

/-! ## Converter state

`Converter` holds `base_dir` and the ID index built by `populate_index`.
The index maps identifiers to raw nodes of any indexable kind
(`Node | Project | Signature | Param | TypeParameter`); rendering only
ever reads the `path` attribute of the indexed node. -/

inductive IndexMember where
  | node (n : Node)
  | signature (s : Signature)
  | param (p : Param)
  | typeParam (t : TypeParameter)

/-- The `path` attribute of an indexed node (every `Base` subclass has
it; `Param` and `TypeParameter` keep the default `[]` unless the indexer
filled it in). -/
def IndexMember.path : IndexMember → List String
  | .node n => n.info.path
  | .signature s => s.path
  | .param _ => []
  | .typeParam _ => []

structure Converter where
  baseDir : String := ""
  index : List (Int × IndexMember) := []

/-- Python `converter.index[i]` (a dict lookup; missing key is `KeyError`). -/
def Converter.lookup (c : Converter) (i : Int) : Option IndexMember :=
  (c.index.find? (fun e => e.1 = i)).map (·.2)

/-! ## IR model

`ir.py` is not among the provided sources; these containers are modelled
from the complete set of constructor calls in `typedoc.py`
(`ir.Function`, `ir.Attribute`, `ir.Param`, `ir.Return`, `ir.TypeParam`,
`ir.Pathname`, `ir.TypeXRefInternal`, `ir.TypeXRefExternal`,
`ir.DescriptionText`, `ir.DescriptionCode`, `ir.NO_DEFAULT`). -/

/-- A rendered type fragment: literal text or a cross-reference token. -/
inductive Frag where
  | str (s : String)
  | xrefInternal (name : String) (path : List String)
  | xrefExternal (name : String) (package : String)
      (sourceFileName : String) (qualifiedName : String)
deriving DecidableEq, Repr

/-- Python `ir.DescriptionText` / `ir.DescriptionCode`. -/
inductive IRDesc where
  | text (s : String)
  | code (s : String)
deriving DecidableEq, Repr

/-- Python `ir.Pathname`. -/
structure Pathname where
  segments : List String
deriving DecidableEq, Repr

/-- The `deprecated` top-level property: either the literal `False` or a
non-empty description (`self.comment.get_tag_one("deprecated") or False`). -/
inductive DeprecatedVal where
  | flagFalse
  | reason (items : List IRDesc)
deriving DecidableEq, Repr

/-- The common keyword arguments produced by
`TopLevelProperties._top_level_properties`.  `properties` is always
passed `[]` in this file; its element type (`ir.Attribute`) is opaque
here. -/
structure TLPData where
  name : String
  path : Pathname
  filename : String
  deppath : String
  description : List IRDesc
  line : Option Int
  deprecated : DeprecatedVal
  examples : List (List IRDesc)
  see_alsos : List String
  properties : List Unit
  exported_from : Pathname
deriving DecidableEq, Repr

/-- Python `ir.Param`.  `default` keeps `self.defaultValue or ir.NO_DEFAULT`:
`none` stands for the `NO_DEFAULT` sentinel (chosen when `defaultValue`
is `None` or the empty string, per Python truthiness). -/
structure IRParam where
  name : String
  description : List IRDesc
  has_default : Bool
  is_variadic : Bool
  type : List Frag
  default : Option String
deriving DecidableEq, Repr

/-- Python `ir.Return`. -/
structure IRReturn where
  type : List Frag
  description : List IRDesc
deriving DecidableEq, Repr

/-- Python `ir.TypeParam`. -/
structure IRTypeParam where
  name : String
  extendsType : Option (List Frag)
  description : List IRDesc
deriving DecidableEq, Repr

/-- Python `ir.Function` as constructed by `Signature.to_ir` (the `exceptions`
argument is always the empty list and is not repeated here). -/
structure IRFunction where
  tlp : TLPData
  params : List IRParam
  type_params : List IRTypeParam
  returns : List IRReturn
  is_async : Bool
  memberProps : MemberProperties
deriving DecidableEq, Repr

/-- Python `ir.Attribute` as constructed by `Accessor.to_ir` / `Member.to_ir`. -/
structure IRAttribute where
  tlp : TLPData
  memberProps : MemberProperties
  type : List Frag
deriving DecidableEq, Repr

/-- A converted class member: `ir.Function | ir.Attribute`. -/
inductive IRMember where
  | fn (f : IRFunction)
  | attr (a : IRAttribute)
deriving DecidableEq, Repr

/-! ## Comment helpers -/

/-- Python `DescriptionItem.to_ir`. -/
def DescriptionItem.to_ir (d : DescriptionItem) : IRDesc :=
  match d.kind with
  | .text => .text d.text
  | .code => .code d.text

/-- Python `description_to_ir`. -/
def description_to_ir (desc : List DescriptionItem) : List IRDesc :=
  desc.map DescriptionItem.to_ir

/-- Structural split of a string on a single-character separator
(Python `str.split(sep)`); `String.splitOn` itself does not reduce
definitionally, so concrete evaluations use this equivalent. -/
def splitCharAux (sep : Char) : List Char → List (List Char)
  | [] => [[]]
  | c :: rest =>
    match splitCharAux sep rest with
    | [] => [[]]
    | h :: t => if c = sep then [] :: h :: t else (c :: h) :: t

def splitChar (s : String) (sep : Char) : List String :=
  (splitCharAux sep s.toList).map String.mk

/-- Structural `String.startsWith`. -/
def strStartsWith (s pre : String) : Bool :=
  pre.toList.isPrefixOf s.toList

/-- Python `str.removesuffix(".")`. -/
def removeDotSuffix (s : String) : String :=
  match s.toList.reverse with
  | '.' :: rest => String.mk rest.reverse
  | _ => s

/-- Python `tag.tag.removeprefix("@")` as used when keying `Comment.tags`. -/
def removeAtSign (s : String) : String :=
  if strStartsWith s "@" then s.drop 1 else s

/-- Python `self.tags[tag]`: the block-tag contents filed under a tag name
(leading `@` stripped), in order. -/
def Comment.tagContents (c : Comment) (tag : String) : List (List DescriptionItem) :=
  (c.blockTags.filter (fun t => removeAtSign t.tag = tag)).map (·.content)

/-- Python `Comment.get_description`. -/
def Comment.get_description (c : Comment) : List IRDesc :=
  description_to_ir c.summary

/-- Python `Comment.get_tag_list`. -/
def Comment.get_tag_list (c : Comment) (tag : String) : List (List IRDesc) :=
  (c.tagContents tag).map description_to_ir

/-- Python `Comment.get_tag_one`: empty when absent, the sole entry otherwise;
more than one entry fails the `assert len(l) == 1`. -/
def Comment.get_tag_one (c : Comment) (tag : String) : Except RErr (List IRDesc) :=
  match c.tagContents tag with
  | [] => pure []
  | [l] => pure (description_to_ir l)
  | _ => throw .assertFail

/-- Python `Base.member_properties`. -/
def Flags.member_properties (f : Flags) : MemberProperties :=
  { is_abstract := f.isAbstract
    is_optional := f.isOptional
    is_static := f.isStatic
    is_private := f.isPrivate }

/-- Python `or` on two lists (`self.typeParameter or self.typeParameters`). -/
def listOr {α : Type} (a b : List α) : List α :=
  if a.isEmpty then b else a

/-! ## Path computation -/

/-- Modelled from the spec: `analyzer_utils.is_explicitly_rooted` is not
among the provided sources.  Per §3 the file-path branch prefixes a
relative marker unless the path is already explicitly rooted, i.e.
starts with an absolute or explicit-relative marker. -/
def is_explicitly_rooted (path : String) : Bool :=
  strStartsWith path "/" || strStartsWith path "./" || strStartsWith path "../"

/-- The root part of `os.path.splitext`: strip the extension after the
last dot, never counting a run of leading dots as an extension
separator. -/
def splitextRoot (s : String) : String :=
  let cs := s.toList
  let lead := (cs.takeWhile (· = '.')).length
  let rest := cs.drop lead
  match (rest.reverse.takeWhile (· ≠ '.')).length with
  | 0 => s
  | n =>
    if n = rest.length then s
    else String.mk (cs.take (cs.length - n - 1))

/-- Python `os.path.basename` with `/` separators. -/
def basenameOf (s : String) : String :=
  (splitChar s '/').getLastD s

/-- Python `make_filepath_segments`. -/
def make_filepath_segments (path : String) : List String :=
  let path := if ¬ is_explicitly_rooted path then "." ++ "/" ++ path else path
  let segs := splitChar path '/'
  let filename := splitextRoot (segs.getLastD "")
  (segs.dropLast.map (· ++ "/")) ++ [filename]

/-- Python `Converter.compute_path`, as a pure function of the data it reads:
the node's `flags.isStatic` and `kindString`, the parent's kind and
computed segments, the filename in scope, and the node's own
`_path_segments` result `segs`.  Returns the segments assigned to
`node.path`. -/
def compute_path (isStatic : Bool) (kindString : String) (parentKind : String)
    (parentSegments : List String) (filename : String)
    (segs : List String) : List String :=
  let delimiter := if ¬ isStatic ∧ parentKind = "Class" then "#" else "."
  let parentSegments :=
    if parentKind = "Project" ∧ kindString ∉ ["Module", "External module"] ∧
        parentSegments = [] then
      make_filepath_segments filename
    else parentSegments
  if ¬ segs.isEmpty ∧ ¬ parentSegments.isEmpty then
    parentSegments.dropLast ++ [parentSegments.getLastD "" ++ delimiter] ++ segs
  else if ¬ segs.isEmpty then segs else parentSegments

/-! ## Top-level properties -/

/-- Python `TopLevelProperties._top_level_properties`, with the short name
passed in (modules override `short_name`; signatures and ordinary nodes
use `self.name`).  `get_tag_one("deprecated")` can fail its arity
assertion, hence `Except`. -/
def top_level_properties (info : NodeInfo) (shortName : String) :
    Except RErr TLPData := do
  let deprecated ← info.comment.get_tag_one "deprecated"
  pure
    { name := shortName
      path := ⟨info.path⟩
      filename := basenameOf info.filename
      deppath := info.filename
      description := info.comment.get_description
      line := info.sources.head?.map (·.line)
      deprecated := if deprecated.isEmpty then .flagFalse else .reason deprecated
      examples := info.comment.get_tag_list "example"
      see_alsos := []
      properties := []
      exported_from := ⟨make_filepath_segments info.filename⟩ }

/-! ## Type-expression rendering

One fuel unit is consumed on entry to each function of the block; every
inner call receives the decremented fuel, so totality is immediate and
`RErr.outOfFuel` is the only artefact of the embedding. -/

/-- Python `riffle`: interleave the rendered chunks with a separator. -/
def riffle (ts : List (List Frag)) (other : Frag) : List Frag :=
  match ts with
  | [] => []
  | t :: rest => t ++ rest.foldl (fun acc x => acc ++ other :: x) []

mutual

/-- Python `TypeBase.render_name` / `TypeBase._render_name`: the root rendering
followed by `<...>` around the comma-riffled `typeArguments`, uniformly
for every variant. -/
def render_name (fuel : Nat) (c : Converter) (t : TypeD) :
    Except RErr (List Frag) :=
  match fuel with
  | 0 => throw .outOfFuel
  | fuel + 1 => do
    let root ← render_name_root fuel c t
    match t.typeArguments with
    | [] => pure root
    | args => do
      let rs ← render_names fuel c args
      pure (root ++ [Frag.str "<"] ++ riffle rs (.str ", ") ++ [Frag.str ">"])

/-- Render a list of type expressions in order. -/
def render_names (fuel : Nat) (c : Converter) (ts : List TypeD) :
    Except RErr (List (List Frag)) :=
  match fuel with
  | 0 => throw .outOfFuel
  | fuel + 1 =>
    match ts with
    | [] => pure []
    | t :: rest => do
      let r ← render_name fuel c t
      let rs ← render_names fuel c rest
      pure (r :: rs)

/-- The per-variant `_render_name_root` methods.  The `reference` case
follows `ReferenceType._render_name_root` exactly: a type-parameter
reference yields the bare name; a positive integer target is resolved
through the index into an internal cross-reference; anything else must
be an external `Target` with a truthy `package` (two `assert`s), else
`AssertionError`. -/
def render_name_root (fuel : Nat) (c : Converter) (t : TypeD) :
    Except RErr (List Frag) :=
  match fuel with
  | 0 => throw .outOfFuel
  | fuel + 1 =>
    match t with
    | .andOr _ isUnion types => do
        let rs ← render_names fuel c types
        pure (riffle rs (.str (if isUnion then "|" else " & ")))
    | .array _ el => do
        let r ← render_name fuel c el
        pure (r ++ [Frag.str "[]"])
    | .operator _ op target => do
        let r ← render_name fuel c target
        pure (Frag.str (op ++ " ") :: r)
    | .intrinsic _ name => pure [Frag.str name]
    | .reference _ name target package refersToTypeParameter =>
        if refersToTypeParameter then pure [Frag.str name]
        else
          match target with
          | some (.id n) =>
            if n > 0 then
              match c.lookup n with
              | none => throw .keyError
              | some m => pure [Frag.xrefInternal name m.path]
            else throw .assertFail
          | some (.ext tgt) =>
            match package with
            | none => throw .assertFail
            | some p =>
              if p = "" then throw .assertFail
              else pure [Frag.xrefExternal name p tgt.sourceFileName tgt.qualifiedName]
          | none => throw .assertFail
    | .reflection _ decl =>
        match decl with
        | .typeLiteral _ ch sigs isig => render_type_literal fuel c ch sigs isig
        | .callable _ kind _ sigs => do
            let base ←
              match sigs with
              | [] => throw RErr.indexError
              | s :: _ => render_signature fuel c s
            pure (if kind = .constructor
              then Frag.str "\x7bnew " :: (base ++ [Frag.str "\x7d"])
              else base)
        | _ => pure [Frag.str "<TODO: reflection>"]
    | .literal _ v =>
        match v with
        | .nullV => pure [Frag.str "null"]
        | .intV _ => pure [Frag.str "number"]
        | .boolV _ => pure [Frag.str "number"]
        | .strV _ => pure [Frag.str "<TODO: Unknown type>"]
    | .tuple _ elements => do
        let rs ← render_names fuel c elements
        pure ([Frag.str "["] ++ riffle rs (.str ", ") ++ [Frag.str "]"])
    | .indexedAccess _ => pure [Frag.str "<TODO: not implemented>"]
    | .unknown _ name => pure [Frag.str name]
    | .predicate _ name targetType => do
        let r ← render_name fuel c targetType
        pure (Frag.str name :: Frag.str " is " :: r)

/-- Python `Signature.return_type`: nothing for an intrinsic `void` return,
otherwise one `ir.Return` with the rendered type and the `@returns`
tag (whose arity `assert` may fail). -/
def return_type (fuel : Nat) (c : Converter) (s : Signature) :
    Except RErr (List IRReturn) :=
  match fuel with
  | 0 => throw .outOfFuel
  | fuel + 1 =>
    match s.type with
    | .intrinsic _ "void" => pure []
    | _ => do
        let ty ← render_name fuel c s.type
        let desc ← s.comment.get_tag_one "returns"
        pure [{ type := ty, description := desc }]

/-- Python `Signature.render`: `(name: type, ...) => ret`, where an empty
rendered return type fails the `assert ret`. -/
def render_signature (fuel : Nat) (c : Converter) (s : Signature) :
    Except RErr (List Frag) :=
  match fuel with
  | 0 => throw .outOfFuel
  | fuel + 1 => do
    let ps ← render_sig_params fuel c s.parameters
    let rt ← return_type fuel c s
    let retFrags ←
      match rt with
      | [] => pure [Frag.str "void"]
      | r :: _ => if r.type.isEmpty then throw RErr.assertFail else pure r.type
    pure ([Frag.str "("] ++ riffle ps (.str ", ") ++ [Frag.str ") => "] ++ retFrags)

/-- The `inner` generator of `Signature.render`, mapped over the
parameter list. -/
def render_sig_params (fuel : Nat) (c : Converter) (ps : List Param) :
    Except RErr (List (List Frag)) :=
  match fuel with
  | 0 => throw .outOfFuel
  | fuel + 1 =>
    match ps with
    | [] => pure []
    | p :: rest => do
      let t ← render_name fuel c p.type
      let rs ← render_sig_params fuel c rest
      pure ((Frag.str (p.name ++ ": ") :: t) :: rs)

/-- Python `TypeLiteral.render`: an inline call signature when call signatures
exist, else the `{ ... }` structural literal with the optional index
signature (whose single-parameter `assert` may fail) and the member
children. -/
def render_type_literal (fuel : Nat) (c : Converter) (children : List Node)
    (signatures : List Signature) (indexSignature : Option Signature) :
    Except RErr (List Frag) :=
  match fuel with
  | 0 => throw .outOfFuel
  | fuel + 1 =>
    match signatures with
    | s :: _ => render_signature fuel c s
    | [] => do
      let isigFrags ←
        match indexSignature with
        | none => pure ([] : List Frag)
        | some isig =>
          match isig.parameters with
          | [key] => do
            let kt ← render_name fuel c key.type
            let it ← render_name fuel c isig.type
            pure ([Frag.str "[", Frag.str key.name, Frag.str ": "] ++ kt ++
              [Frag.str "]", Frag.str ": "] ++ it ++ [Frag.str "; "])
          | _ => throw RErr.assertFail
      let childFrags ← render_tl_children fuel c children
      pure ([Frag.str "\x7b "] ++ isigFrags ++ childFrags ++ [Frag.str "\x7d"])

/-- The member-children loop of `TypeLiteral.render`.  The source's
static types make every child a `Member`; other constructors are
unreachable. -/
def render_tl_children (fuel : Nat) (c : Converter) (children : List Node) :
    Except RErr (List Frag) :=
  match fuel with
  | 0 => throw .outOfFuel
  | fuel + 1 =>
    match children with
    | [] => pure []
    | ch :: rest =>
      match ch with
      | .member info _ _ ty => do
          let tf ← render_name fuel c ty
          let rs ← render_tl_children fuel c rest
          pure ((Frag.str info.name ::
            Frag.str (if info.flags.isOptional then "?: " else ": ") ::
            (tf ++ [Frag.str "; "])) ++ rs)
      | _ => throw RErr.typeError

end

/-! ## Conversion to IR -/

/-- Python `Param.to_ir`. -/
def Param.to_ir (fuel : Nat) (c : Converter) (p : Param) :
    Except RErr IRParam := do
  let ty ← render_name fuel c p.type
  pure
    { name := p.name
      description := p.comment.get_description
      has_default := p.defaultValue.isSome
      is_variadic := p.flags.isRest
      type := ty
      default := match p.defaultValue with
        | some s => if s = "" then none else some s
        | none => none }

/-- Python `TypeParameter.to_ir`. -/
def TypeParameter.to_ir (fuel : Nat) (c : Converter) (tp : TypeParameter) :
    Except RErr IRTypeParam := do
  let extendsType ←
    match tp.type with
    | none => pure (Option.none : Option (List Frag))
    | some t => do
        let r ← render_name fuel c t
        pure (some r)
  pure
    { name := tp.name
      extendsType := extendsType
      description := tp.comment.get_description }

/-- Python `Signature._fix_type_suffix`, acting on the signature's (path, name)
pair: when the last path segment is the synthetic `"__type"`, drop it,
strip a trailing `.` from the new last segment and re-derive the name.
Python subscripts `path[-1]`, so an empty (or emptied) path raises
`IndexError`. -/
def fix_type_suffix (path : List String) (name : String) :
    Except RErr (List String × String) :=
  match path.getLast? with
  | none => throw .indexError
  | some last =>
    if last = "__type" then
      let path := path.dropLast
      match path.getLast? with
      | none => throw .indexError
      | some l2 =>
        let l2 := removeDotSuffix l2
        pure (path.dropLast ++ [l2], l2)
    else pure (path, name)

/-- The `@destructure` target extraction at the top of
`Signature._destructure_params`: the first `@destructure` block tag's
first content item, split on spaces (`tag.content[0]` raises on an
empty content list). -/
def destructure_targets (blockTags : List Tag) : Except RErr (List String) :=
  match blockTags.find? (fun t => t.tag = "@destructure") with
  | none => pure []
  | some t =>
    match t.content with
    | [] => throw .indexError
    | item :: _ => pure (splitChar item.text ' ')

/-- The child loop of `Signature._destructure_param`. -/
def destructure_children (outer : String) (children : List Node) :
    Except RErr (List Param) :=
  match children with
  | [] => pure []
  | ch :: rest =>
    match ch with
    | .member info _ _ ty => do
        let tail ← destructure_children outer rest
        pure (Param.mk {} none {} (outer ++ "." ++ info.name) ty :: tail)
    | _ => throw .assertFail

/-- Python `Signature._destructure_param`: the parameter's type must be a
reflection (first `assert`); each child of its declaration must be a
`Member` (second `assert`) and produces one synthetic parameter
`outer.inner` carrying the member's type, default flags and a default
(empty) comment. -/
def destructure_param (p : Param) : Except RErr (List Param) :=
  match p.type with
  | .reflection _ decl => destructure_children p.name decl.children
  | _ => throw .assertFail

/-- The parameter loop of `Signature._destructure_params` once targets
are known: a parameter named in the targets is expanded, any other
parameter is skipped. -/
def destructure_loop (targets : List String) (ps : List Param) :
    Except RErr (List Param) :=
  match ps with
  | [] => pure []
  | p :: rest => do
    let tail ← destructure_loop targets rest
    if targets.contains p.name then do
      let ds ← destructure_param p
      pure (ds ++ tail)
    else pure tail

/-- Python `Signature._destructure_params`. -/
def destructure_params (comment : Comment) (parameters : List Param) :
    Except RErr (List Param) := do
  let targets ← destructure_targets comment.blockTags
  if targets.isEmpty then pure parameters
  else destructure_loop targets parameters

/-- The async heuristic of `Signature.to_ir`:
`isinstance(self.type, ReferenceType) and self.type.name == "Promise"`. -/
def is_async_type (t : TypeD) : Bool :=
  match t with
  | .reference _ name _ _ _ => name = "Promise"
  | _ => false

/-- The unconditional tail of `Signature.to_ir` (everything after the
inherited-and-uncommented early return), producing the `ir.Function`. -/
def Signature.to_ir_body (fuel : Nat) (c : Converter) (s : Signature) :
    Except RErr IRFunction := do
  let name :=
    if strStartsWith s.name "[" then "[Symbol․" ++ s.name.drop 1 else s.name
  let (path, name) ← fix_type_suffix s.path name
  let params ← destructure_params s.comment s.parameters
  let is_async := is_async_type s.type
  let irParams ← params.mapM (Param.to_ir fuel c)
  let typeParams ← (listOr s.typeParameter s.typeParameters).mapM
    (TypeParameter.to_ir fuel c)
  let returns ←
    (if s.kind ≠ .constructorSig then return_type fuel c s else pure [])
  let info : NodeInfo := { s.info with name := name, path := path }
  let tlp ← top_level_properties info name
  pure
    { tlp := tlp
      params := irParams
      type_params := typeParams
      returns := returns
      is_async := is_async
      memberProps := s.parentMemberProperties }

/-- Python `Signature.to_ir`: an inherited signature with a pristine comment is
dropped (`None, []`); otherwise the built function is returned together
with the signature's children. -/
def Signature.to_ir (fuel : Nat) (c : Converter) (s : Signature) :
    Except RErr (Option IRFunction × List Node) :=
  if s.inheritedFrom.isSome ∧ s.comment = ({} : Comment) then
    pure (none, [])
  else (s.to_ir_body fuel c).map (fun f => (some f, s.children))

/-- Python `callable_to_ir`: only the first signature is converted, after its
`sources` are overwritten with the node's; an empty signature list
raises `IndexError`. -/
def callable_to_ir (fuel : Nat) (c : Converter) (sources : List SourceRec)
    (signatures : List Signature) :
    Except RErr (Option IRFunction × List Node) :=
  match signatures with
  | [] => throw .indexError
  | s :: _ => Signature.to_ir fuel c (s.setSources sources)

/-- Python `Accessor.to_ir`: the type comes from the getter's return type when
a getter exists, else from the setter's first parameter (`parameters[0]`
raises on an empty list); with neither signature the `assert
self.setSignature` fails. -/
def Accessor.to_ir (fuel : Nat) (c : Converter) (info : NodeInfo)
    (children : List Node) (getSignature setSignature : Option Signature) :
    Except RErr (IRAttribute × List Node) := do
  let ty ←
    match getSignature with
    | some gs => pure gs.type
    | none =>
      match setSignature with
      | some ss =>
        match ss.parameters with
        | p :: _ => pure p.type
        | [] => throw RErr.indexError
      | none => throw RErr.assertFail
  let rendered ← render_name fuel c ty
  let tlp ← top_level_properties info info.name
  pure ({ tlp := tlp, memberProps := info.flags.member_properties,
          type := rendered }, children)

/-- The attribute branch of `Member.to_ir`. -/
def Member.attr_ir (fuel : Nat) (c : Converter) (info : NodeInfo)
    (children : List Node) (ty : TypeD) :
    Except RErr (Option IRMember × List Node) := do
  let rendered ← render_name fuel c ty
  let tlp ← top_level_properties info info.name
  let attr : IRAttribute :=
    { tlp := tlp, memberProps := info.flags.member_properties, type := rendered }
  pure (some (.attr attr), children)

/-- Python `Member.to_ir`: a member whose type is a reflected `TypeLiteral`
with call signatures is converted through `callable_to_ir` (i.e. as a
function); every other member becomes an attribute. -/
def Member.to_ir (fuel : Nat) (c : Converter) (info : NodeInfo)
    (children : List Node) (ty : TypeD) :
    Except RErr (Option IRMember × List Node) :=
  match ty with
  | .reflection _ (.typeLiteral dinfo _ dsigs _) =>
    if dsigs.isEmpty then Member.attr_ir fuel c info children ty
    else
      (callable_to_ir fuel c dinfo.sources dsigs).map
        (fun r => (r.1.map .fn, r.2))
  | _ => Member.attr_ir fuel c info children ty

/-- Line 545-547 of `_constructor_and_members`:
`child.signatures[0].typeParameter = self.typeParameter or
self.typeParameters` — the constructor signature's `typeParameter` is
unconditionally overwritten with the class's list. -/
def constructorSigUpdate (clsTypeParameter clsTypeParameters : List TypeParameter)
    (sig : Signature) : Signature :=
  sig.setTypeParameter (listOr clsTypeParameter clsTypeParameters)

/-- Conversion of one (non-constructor) class child inside
`_constructor_and_members`.  The source's `ClassChild` union restricts
children to `Accessor | Callable | Member`; other constructors are
unreachable. -/
def class_child_to_ir (fuel : Nat) (c : Converter) (child : Node) :
    Except RErr (Option IRMember × List Node) :=
  match child with
  | .accessor info ch gs ss =>
      (Accessor.to_ir fuel c info ch gs ss).map
        (fun r => (some (.attr r.1), r.2))
  | .callable info _ _ sigs =>
      (callable_to_ir fuel c info.sources sigs).map
        (fun r => (r.1.map .fn, r.2))
  | .member info _ ch ty => Member.to_ir fuel c info ch ty
  | _ => throw .typeError

/-- The child loop of `ClassOrInterface._constructor_and_members`.  A
`Constructor` child has its first signature's type parameters
overwritten from the class (raising `IndexError` when it has no
signatures) and its conversion replaces the constructor accumulator; any
other child's converted entity, when present, is appended to the member
list. -/
def constructor_and_members_loop (fuel : Nat) (c : Converter)
    (clsTp clsTps : List TypeParameter) (children : List Node)
    (ctor : Option IRFunction) :
    Except RErr (Option IRFunction × List IRMember) :=
  match children with
  | [] => pure (ctor, [])
  | child :: rest =>
    match child with
    | .callable info .constructor _cch sigs =>
      match sigs with
      | [] => throw .indexError
      | s :: srest => do
          let s := constructorSigUpdate clsTp clsTps s
          let r ← callable_to_ir fuel c info.sources (s :: srest)
          constructor_and_members_loop fuel c clsTp clsTps rest r.1
    | _ => do
      let r ← class_child_to_ir fuel c child
      let (ctor, members) ← constructor_and_members_loop fuel c clsTp clsTps rest ctor
      pure (ctor, match r.1 with
        | some m => m :: members
        | none => members)

/-- Python `ClassOrInterface._constructor_and_members`. -/
def constructor_and_members (fuel : Nat) (c : Converter)
    (clsTp clsTps : List TypeParameter) (children : List Node) :
    Except RErr (Option IRFunction × List IRMember) :=
  constructor_and_members_loop fuel c clsTp clsTps children none

/-! ## Suffix path index

Modelled from the spec: `sphinx_js/suffix_tree.py` is not among the
provided sources (only its test suite is), so the structure follows
§4.5 of the specification: `add` stores (path, value) pairs; `get`
matches the queried suffix against the stored paths from the end,
reports `SuffixNotFound` when no stored path ends with the suffix,
succeeds on a unique match or on the degenerate exact-path match, and
reports `SuffixAmbiguous` when several paths end with the suffix and
the suffix does not uniquely disambiguate (i.e. is not itself a full
stored path). -/

/-- Outcome of `SuffixTree.get`: the exceptions `SuffixNotFound` and
`SuffixAmbiguous` are modelled as result constructors. -/
inductive GetResult (V : Type) where
  | found (v : V)
  | suffixNotFound
  | suffixAmbiguous
deriving DecidableEq, Repr

/-- Modelled from the spec (§4.5): the suffix index over path-segment
sequences. -/
structure SuffixTree (V : Type) where
  entries : List (List String × V) := []
deriving DecidableEq, Repr

/-- Modelled from the spec (§4.5): `add(segments, value)`. -/
def SuffixTree.add {V : Type} (t : SuffixTree V) (segments : List String)
    (value : V) : SuffixTree V :=
  { entries := t.entries ++ [(segments, value)] }

/-- Modelled from the spec (§4.5): `add_many` bulk-loads pairs in order. -/
def SuffixTree.add_many {V : Type} (t : SuffixTree V)
    (pairs : List (List String × V)) : SuffixTree V :=
  pairs.foldl (fun acc p => acc.add p.1 p.2) t

/-- The stored paths that end with the queried suffix. -/
def SuffixTree.matches {V : Type} (t : SuffixTree V) (suffix : List String) :
    List (List String × V) :=
  t.entries.filter (fun e => decide (suffix <:+ e.1))

/-- Modelled from the spec (§4.5): `get(suffix_segments)`. -/
def SuffixTree.get {V : Type} (t : SuffixTree V) (suffix : List String) :
    GetResult V :=
  match t.matches suffix with
  | [] => .suffixNotFound
  | [e] => .found e.2
  | _ :: _ :: _ =>
    match (t.matches suffix).find? (fun e => e.1 = suffix) with
    | some e => .found e.2
    | none => .suffixAmbiguous

/-! ## Parsing and diagnostic narrowing

`parse` delegates the actual validation to pydantic
(`Project.parse_obj`), an external library; the embedding therefore
takes the validator as a function argument and models what `parse` and
`fix_exc_errors` do around it.  Likewise the per-class re-validation
`c.parse_obj(o)` inside `fix_exc_errors` is a parameter
(`classParse disc discValue subtree`, returning the localized errors
when the subtree fails in isolation and `none` when it passes). -/

/-- One component of a pydantic error location: a dict key or a list
index. -/
inductive JKey where
  | str (s : String)
  | num (n : Int)
deriving DecidableEq, Repr

/-- A JSON value. -/
inductive Json where
  | null
  | bool (b : Bool)
  | num (n : Int)
  | str (s : String)
  | arr (elems : List Json)
  | obj (fields : List (String × Json))
deriving Repr

mutual

def Json.beq : Json → Json → Bool
  | .null, .null => true
  | .bool a, .bool b => a = b
  | .num a, .num b => a = b
  | .str a, .str b => a = b
  | .arr a, .arr b => Json.beqList a b
  | .obj a, .obj b => Json.beqFields a b
  | _, _ => false

def Json.beqList : List Json → List Json → Bool
  | [], [] => true
  | a :: as_, b :: bs_ => Json.beq a b && Json.beqList as_ bs_
  | _, _ => false

def Json.beqFields : List (String × Json) → List (String × Json) → Bool
  | [], [] => true
  | (ka, va) :: as_, (kb, vb) :: bs_ =>
      ka = kb && Json.beq va vb && Json.beqFields as_ bs_
  | _, _ => false

end

instance : BEq Json := ⟨Json.beq⟩

/-- One entry of `exc.errors()`. -/
structure PErr where
  loc : List JKey
  msg : String
deriving DecidableEq, Repr

/-- Python `pydantic.ValidationError` as observed by this code: the raw error
list and the `_error_cache` that `fix_exc_errors` may overwrite. -/
structure ValidationError where
  errors : List PErr
  errorCache : Option (List PErr) := none
deriving DecidableEq, Repr

/-- An exception escaping `parse`: either the (possibly rewritten)
`ValidationError` re-raised by the handler, or a `KeyError`/`TypeError`
raised from inside `fix_exc_errors` itself while following an error
location (`o = o[a]`) or testing `disc not in o` on a non-container. -/
inductive PyExc where
  | validation (e : ValidationError)
  | lookupError
deriving DecidableEq, Repr

/-- Python `o = o[a]` along a location path; a failing subscript raises. -/
def Json.getPath (j : Json) (loc : List JKey) : Option Json :=
  match loc with
  | [] => some j
  | k :: rest =>
    match j, k with
    | .obj fields, .str s =>
      match fields.find? (fun f => f.1 = s) with
      | some f => f.2.getPath rest
      | none => none
    | .arr elems, .num n =>
      if h : 0 ≤ n ∧ n.toNat < elems.length then
        (elems.get ⟨n.toNat, h.2⟩).getPath rest
      else none
    | _, _ => none

/-- The keys of `classesByDiscriminator["kindString"]`: every value of a
`kindString: Literal[...]` annotation in the module. -/
def kindStringValues : List String :=
  ["Project", "Accessor", "Constructor", "Method", "Function", "Class",
   "Interface", "Property", "Variable", "External module", "Module",
   "Type literal", "Enumeration", "Enumeration Member", "Namespace",
   "Type alias", "Reference", "Type parameter", "Parameter",
   "Constructor signature", "Call signature", "Get signature",
   "Set signature", "Index signature"]

/-- The keys of `classesByDiscriminator["type"]`: every value of a
`type: Literal[...]` annotation in the module. -/
def typeDiscValues : List String :=
  ["union", "intersection", "array", "typeOperator", "intrinsic",
   "reference", "reflection", "literal", "tuple", "indexedAccess",
   "unknown", "predicate"]

def knownDiscValues (disc : String) : List String :=
  if disc = "kindString" then kindStringValues
  else if disc = "type" then typeDiscValues
  else []

/-- Python `disc not in o` for one discriminator: dict-key membership on an
object, element membership on a list, substring membership on a string
(Python semantics), and `TypeError` on anything non-iterable. -/
def discContains (o : Json) (disc : String) : Except PyExc Bool :=
  match o with
  | .obj fields => pure (fields.any (fun f => f.1 = disc))
  | .arr elems => pure (elems.contains (Json.str disc))
  | .str s => pure (decide (disc.toList <:+: s.toList))
  | _ => throw .lookupError

/-- One iteration of the discriminator loop in `fix_exc_errors`:
continue (`none`) unless `o` has the discriminator key and its value is
a known class tag; subscripting a list or string with a string key
raises `TypeError`. -/
def findDiscOne (o : Json) (disc : String) :
    Except PyExc (Option (String × String)) := do
  let present ← discContains o disc
  if present then
    match o with
    | .obj fields =>
      match fields.find? (fun f => f.1 = disc) with
      | some (_, .str v) =>
        if (knownDiscValues disc).contains v then pure (some (disc, v))
        else pure none
      | _ => pure none
    | _ => throw .lookupError
  else pure none

/-- The `for disc in discriminators: ... break / else: continue` search. -/
def findDisc (o : Json) : Except PyExc (Option (String × String)) := do
  match ← findDiscOne o "kindString" with
  | some r => pure (some r)
  | none => findDiscOne o "type"

/-- Ordering of location components under Python tuple comparison.  A
modelling note: CPython would raise `TypeError` comparing an `int`
component with a `str` component in the same position; the model orders
numbers before strings instead (such mixed same-position, same-length
locations do not arise from one validation run). -/
def jkeyLe : JKey → JKey → Bool
  | .num a, .num b => a ≤ b
  | .num _, .str _ => true
  | .str _, .num _ => false
  | .str a, .str b => a ≤ b

/-- Lexicographic comparison of equal-or-unequal-length locations. -/
def locLexLe : List JKey → List JKey → Bool
  | [], _ => true
  | _ :: _, [] => false
  | a :: as_, b :: bs_ =>
    if a = b then locLexLe as_ bs_ else jkeyLe a b

/-- Python `sorted(..., key=lambda loc: (-len(loc), loc))`: longer locations
first, ties broken lexicographically ascending. -/
def locSortLe (a b : List JKey) : Bool :=
  if a.length = b.length then locLexLe a b else b.length < a.length

def insertLoc (l : List JKey) : List (List JKey) → List (List JKey)
  | [] => [l]
  | x :: xs => if locSortLe l x then l :: x :: xs else x :: insertLoc l xs

def sortLocs (ls : List (List JKey)) : List (List JKey) :=
  ls.foldr insertLoc []

/-- The main loop of `fix_exc_errors` over the sorted distinct parent
locations.  `n` is `len(s)` — the total number of locations — because
the source marks prefixes as handled with
`for i in range(len(s)): handled.add(loc[:i])`.  Returns the collected
localized errors. -/
def fixLoop (classParse : String → String → Json → Option (List PErr))
    (json : Json) (n : Nat) :
    List (List JKey) → List (List JKey) → Except PyExc (List PErr)
  | [], _ => pure []
  | loc :: rest, handled =>
    if handled.contains loc then fixLoop classParse json n rest handled
    else
      let handled := handled ++ (List.range n).map (fun i => loc.take i)
      match json.getPath loc with
      | none => throw .lookupError
      | some o => do
        match ← findDisc o with
        | none => fixLoop classParse json n rest handled
        | some (disc, discVal) =>
          match classParse disc discVal o with
          | none => fixLoop classParse json n rest handled
          | some errs => do
            let errs := errs.map (fun e =>
              { loc := loc ++ e.loc
                msg := e.msg ++ "\n" ++ "  Discriminator: " ++ disc ++
                  " = " ++ discVal ++ "\n" })
            let tail ← fixLoop classParse json n rest handled
            pure (errs ++ tail)

/-- Python `fix_exc_errors`: narrow the bulk validation failure to the deepest
distinct failing locations, re-validating each subtree in isolation,
and overwrite the exception's `_error_cache` when anything was
collected. -/
def fix_exc_errors (classParse : String → String → Json → Option (List PErr))
    (json : Json) (exc : ValidationError) : Except PyExc ValidationError := do
  let s := sortLocs ((exc.errors.map (fun e => e.loc.dropLast)).eraseDups)
  let errors ← fixLoop classParse json s.length s []
  if errors.isEmpty then pure exc
  else pure { exc with errorCache := some errors }

/-- Python `parse`: try the pydantic validation; on `ValidationError`, run the
diagnostic narrowing over the same exception object and re-raise it
(narrowing itself may raise instead). -/
def parse {α : Type} (validate : Json → Except ValidationError α)
    (classParse : String → String → Json → Option (List PErr))
    (json : Json) : Except PyExc α :=
  match validate json with
  | .ok t => .ok t
  | .error exc =>
    match fix_exc_errors classParse json exc with
    | .ok exc2 => .error (.validation exc2)
    | .error other => .error other

/-! ## General helper lemmas -/

theorem except_bind_ok {ε α β : Type} {e : Except ε α} {f : α → Except ε β}
    {b : β} : (e >>= f) = Except.ok b ↔ ∃ a, e = Except.ok a ∧ f a = Except.ok b := by
  cases e <;> simp [Bind.bind, Except.bind]

theorem except_map_ok {ε α β : Type} {e : Except ε α} {f : α → β} {b : β} :
    (e.map f) = Except.ok b ↔ ∃ a, e = Except.ok a ∧ f a = b := by
  cases e <;> simp [Except.map]

theorem except_map_ok' {ε α β : Type} {e : Except ε α} {f : α → β} {b : β} :
    (Functor.map f e) = Except.ok b ↔ ∃ a, e = Except.ok a ∧ f a = b := by
  cases e <;> simp [Functor.map, Except.map]

/-! ## Claims -/

/-- C10: `callable_to_ir` (used for `Callable` and `TypeLiteral` nodes)
unconditionally reads `signatures[0]`: an empty signature list raises
`IndexError` rather than yielding no entity, and a non-empty list is
converted through the first signature, whose `sources` are first
overwritten with the node's own. -/
theorem c10_callable_first_signature_only (fuel : Nat) (c : Converter)
    (sources : List SourceRec) :
    callable_to_ir fuel c sources [] = .error .indexError ∧
    ∀ (s : Signature) (rest : List Signature),
      callable_to_ir fuel c sources (s :: rest) =
        Signature.to_ir fuel c (s.setSources sources) :=
  ⟨rfl, fun _ _ => rfl⟩

/-- C8: with a non-empty parent path and non-empty own segments,
`compute_path` joins the parent's segments — the last one suffixed with
`"#"` exactly when the parent kind is `"Class"` and the node is not
static, with `"."` in every other case — with the node's own
segments. -/
theorem c8_compute_path_delimiter (isStatic : Bool) (kindString parentKind : String)
    (parentSegments : List String) (filename : String) (segs : List String)
    (h1 : parentSegments ≠ []) (h2 : segs ≠ []) :
    compute_path isStatic kindString parentKind parentSegments filename segs =
      parentSegments.dropLast ++
        [parentSegments.getLastD "" ++
          (if parentKind = "Class" ∧ isStatic = false then "#" else ".")] ++
        segs := by
  have hpe : ¬ parentSegments.isEmpty := by
    simpa [List.isEmpty_iff] using h1
  have hse : ¬ segs.isEmpty := by
    simpa [List.isEmpty_iff] using h2
  unfold compute_path
  simp only [h1, and_false, if_false, hse, hpe, not_false_iff, and_true, if_true]
  cases isStatic <;> by_cases hpk : parentKind = "Class" <;>
    simp [hpk]

/-- C8 witness: a non-static member of a class gets the `#` delimiter. -/
theorem c8_compute_path_delimiter_witness :
    (["mod.", "C"] : List String) ≠ [] ∧ (["m"] : List String) ≠ [] ∧
    compute_path false "Method" "Class" ["mod.", "C"] "" ["m"] =
      ["mod.", "C#", "m"] :=
  ⟨by decide, by decide,
    (c8_compute_path_delimiter false "Method" "Class" ["mod.", "C"] "" ["m"]
      (by decide) (by decide)).trans (by decide)⟩

/-- C2 counterexample: a reference type whose target identifier is zero
or absent (and which is not a type-parameter reference) does not render
as the plain literal name — the `assert isinstance(self.target, Target)`
fails, so rendering raises `AssertionError`. -/
theorem c2_reference_zero_target_counterexample :
    render_name 5 {} (.reference [] "Foo" (some (.id 0)) none false) =
      .error .assertFail ∧
    render_name 5 {} (.reference [] "Foo" none none false) =
      .error .assertFail :=
  ⟨rfl, rfl⟩

/-- C2 amended: only a reference with `refersToTypeParameter` set
renders as the bare literal name without a cross-reference token; a
zero or absent target without that flag makes `_render_name_root` fail
its `Target` assertion instead of falling back to the plain name. -/
theorem c2_reference_render_amended (fuel : Nat) (c : Converter)
    (args : List TypeD) (name : String) (target : Option RefTarget)
    (package : Option String) :
    render_name_root (fuel + 1) c (.reference args name target package true) =
      .ok [.str name] ∧
    render_name_root (fuel + 1) c (.reference args name none package false) =
      .error .assertFail ∧
    render_name_root (fuel + 1) c
        (.reference args name (some (.id 0)) package false) =
      .error .assertFail :=
  ⟨rfl, rfl, rfl⟩

/-- C3 counterexample: a constructor signature that carries its own
type-parameter list (`T`) does not keep it — the assignment in
`_constructor_and_members` overwrites it with the class's list (`C`). -/
theorem c3_constructor_own_type_params_counterexample :
    ((constructorSigUpdate [.mk "C" none {}] []
        (Signature.mk { name := "new C", path := ["C"] } .constructorSig
          [.mk "T" none {}] [] [] (.intrinsic [] "void") none {} [])).typeParameter.map
      TypeParameter.name) = ["C"] ∧
    ((Signature.mk { name := "new C", path := ["C"] } .constructorSig
        [.mk "T" none {}] [] [] (.intrinsic [] "void") none {} []).typeParameter.map
      TypeParameter.name) = ["T"] ∧
    (["C"] : List String) ≠ ["T"] :=
  ⟨rfl, rfl, by decide⟩

/-- C3 amended: converting a class constructor replaces the first
signature's `typeParameter` list with the class's `typeParameter`
(falling back to its `typeParameters` when the former is empty)
unconditionally — whether or not the signature carried its own — while
every other signature field is untouched, and
`_constructor_and_members` converts exactly that updated signature. -/
theorem c3_constructor_borrows_class_type_params
    (tp1 tp2 : List TypeParameter) (s : Signature) :
    (constructorSigUpdate tp1 tp2 s).typeParameter = listOr tp1 tp2 ∧
    (constructorSigUpdate tp1 tp2 s).typeParameters = s.typeParameters ∧
    (constructorSigUpdate tp1 tp2 s).parameters = s.parameters ∧
    (constructorSigUpdate tp1 tp2 s).type = s.type ∧
    (constructorSigUpdate tp1 tp2 s).info = s.info ∧
    ∀ (fuel : Nat) (c : Converter) (info : NodeInfo) (cch : List Node)
      (srest : List Signature),
      constructor_and_members fuel c tp1 tp2
          [Node.callable info .constructor cch (s :: srest)] =
        (callable_to_ir fuel c info.sources
            (constructorSigUpdate tp1 tp2 s :: srest)).map
          (fun r => (r.1, [])) := by
  refine ⟨?_, ?_, ?_, ?_, ?_, ?_⟩
  · cases s; rfl
  · cases s; rfl
  · cases s; rfl
  · cases s; rfl
  · cases s; rfl
  · intro fuel c info cch srest
    unfold constructor_and_members constructor_and_members_loop
    cases h : callable_to_ir fuel c info.sources
        (constructorSigUpdate tp1 tp2 s :: srest) <;>
      simp [h, Bind.bind, Except.bind, Except.map, constructor_and_members_loop,
        pure, Except.pure]

/-- C1 failing input, comment part: a doc comment carrying
`@destructure options`. -/
def c1Comment : Comment :=
  { blockTags := [⟨"@destructure", [⟨.text, "options"⟩]⟩] }

/-- C1 failing input, the documented description of the `x` property. -/
def c1XComment : Comment := { summary := [⟨.text, "The x value"⟩] }

/-- C1 failing input, the documented description of the `y` property. -/
def c1YComment : Comment := { summary := [⟨.text, "The y value"⟩] }

/-- C1 failing input, parameter list: an ordinary parameter `other` not
named in the tag, then `options` with an inline object type whose
properties `x` and `y` both carry descriptions. -/
def c1Params : List Param :=
  [.mk {} none {} "other" (.intrinsic [] "number"),
   .mk {} none {} "options" (.reflection []
     (.typeLiteral {}
       [.member { name := "x", comment := c1XComment } .property []
          (.intrinsic [] "number"),
        .member { name := "y", comment := c1YComment } .property []
          (.intrinsic [] "string")]
       [] none))]

/-- C1: evaluating `_destructure_params` on the failing input shows the
two divergences from the claim: the untagged parameter `other` is
dropped from the result instead of remaining as a compound-typed
parameter, and the synthetic `options.x` / `options.y` parameters are
created with a fresh empty comment, not inheriting the properties'
descriptions (contradicting the example in `_destructure_param`'s own
docstring). -/
theorem c1_destructure_divergence :
    destructure_params c1Comment c1Params = .ok
      [Param.mk {} none {} "options.x" (.intrinsic [] "number"),
       Param.mk {} none {} "options.y" (.intrinsic [] "string")] ∧
    c1Params.map Param.name = ["other", "options"] ∧
    c1XComment ≠ ({} : Comment) ∧ c1YComment ≠ ({} : Comment) :=
  ⟨by rfl, by rfl, by decide, by decide⟩

/-- Any successful run of the unconditional tail of `Signature.to_ir`
sets `is_async` to the Promise-reference test on the signature's
declared return type. -/
theorem to_ir_body_is_async (fuel : Nat) (c : Converter) (s : Signature)
    (f : IRFunction) (h : Signature.to_ir_body fuel c s = .ok f) :
    f.is_async = is_async_type s.type := by
  unfold Signature.to_ir_body at h
  rcases except_bind_ok.mp h with ⟨pn, _h1, h⟩
  obtain ⟨path2, name2⟩ := pn
  rcases except_bind_ok.mp h with ⟨params, _h2, h⟩
  rcases except_bind_ok.mp h with ⟨irParams, _h3, h⟩
  rcases except_bind_ok.mp h with ⟨typeParams, _h4, h⟩
  rcases except_bind_ok.mp h with ⟨returns, _h5, h⟩
  rcases except_bind_ok.mp h with ⟨tlp, _h6, h⟩
  simp only [pure, Except.pure, Except.ok.injEq] at h
  rw [← h]

/-- C5: an inherited signature (`inheritedFrom` present) converts to no
IR entity when its comment is pristine, and any successful conversion
of an inherited signature with a non-empty authored comment yields an
`ir.Function`. -/
theorem c5_inherited_signature_filter (fuel : Nat) (c : Converter)
    (s : Signature) :
    (s.inheritedFrom.isSome = true → s.comment = ({} : Comment) →
      Signature.to_ir fuel c s = .ok (none, [])) ∧
    (s.inheritedFrom.isSome = true → s.comment ≠ ({} : Comment) →
      ∀ (r : Option IRFunction) (ns : List Node),
        Signature.to_ir fuel c s = .ok (r, ns) → r.isSome = true) := by
  constructor
  · intro h1 h2
    simp [Signature.to_ir, h1, h2, pure, Except.pure]
  · intro _h1 h2 r ns h3
    unfold Signature.to_ir at h3
    rw [if_neg (fun hc => h2 hc.2)] at h3
    rcases except_map_ok.mp h3 with ⟨g, _hg, heq⟩
    have hr : some g = r := congrArg Prod.fst heq
    rw [← hr]
    rfl

/-- C5/C7 witness converter (empty index, empty base dir). -/
def conv0 : Converter := {}

/-- C5 witness input: an inherited call signature carrying one authored
summary line. -/
def sig5c : Signature :=
  .mk { name := "f", path := ["f"], comment := { summary := [⟨.text, "hi"⟩] } }
    .callSig [] [] [] (.intrinsic [] "void") (some ()) {} []

/-- The `ir.Function` that `Signature.to_ir` produces for `sig5c`. -/
def fun5 : IRFunction :=
  { tlp :=
      { name := "f"
        path := ⟨["f"]⟩
        filename := ""
        deppath := ""
        description := [.text "hi"]
        line := none
        deprecated := .flagFalse
        examples := []
        see_alsos := []
        properties := []
        exported_from := ⟨["./", ""]⟩ }
    params := []
    type_params := []
    returns := []
    is_async := false
    memberProps := {} }

/-- C5 witness: `sig5c` is inherited, has an authored comment, and its
conversion yields an entity. -/
theorem c5_inherited_signature_filter_witness :
    sig5c.inheritedFrom.isSome = true ∧ sig5c.comment ≠ ({} : Comment) ∧
    (some fun5 : Option IRFunction).isSome = true :=
  ⟨rfl, by decide,
    (c5_inherited_signature_filter 20 conv0 sig5c).2 rfl (by decide)
      (some fun5) [] (by rfl)⟩

/-- The Promise-name test characterises exactly the reference types
named `"Promise"`. -/
theorem is_async_type_iff (t : TypeD) :
    is_async_type t = true ↔ ∃ args target package rtp,
      t = TypeD.reference args "Promise" target package rtp := by
  cases t <;> simp [is_async_type]

/-- C7: any function produced by `Signature.to_ir` has `is_async` equal
to the syntactic Promise test on the signature's declared return type —
true iff that type is a reference named `"Promise"` — independently of
every other feature of the signature. -/
theorem c7_is_async_promise_heuristic (fuel : Nat) (c : Converter)
    (s : Signature) (f : IRFunction) (ns : List Node)
    (h : Signature.to_ir fuel c s = .ok (some f, ns)) :
    f.is_async = is_async_type s.type ∧
    (f.is_async = true ↔ ∃ args target package rtp,
      s.type = TypeD.reference args "Promise" target package rtp) := by
  have hmain : f.is_async = is_async_type s.type := by
    unfold Signature.to_ir at h
    by_cases hc : s.inheritedFrom.isSome ∧ s.comment = ({} : Comment)
    · rw [if_pos hc] at h
      simp [pure, Except.pure] at h
    · rw [if_neg hc] at h
      rcases except_map_ok.mp h with ⟨g, hg, heq⟩
      have hf : some g = some f := congrArg Prod.fst heq
      injection hf with hf
      exact hf ▸ to_ir_body_is_async fuel c s g hg
  exact ⟨hmain, hmain ▸ is_async_type_iff s.type⟩

/-- C7 witness input: a call signature returning a `Promise` external
reference. -/
def sig7 : Signature :=
  .mk { name := "g", path := ["g"] } .callSig [] [] []
    (.reference [] "Promise" (some (.ext ⟨"lib.ts", "Promise"⟩)) (some "es")
      false)
    none {} []

/-- The `ir.Function` that `Signature.to_ir` produces for `sig7`. -/
def fun7 : IRFunction :=
  { tlp :=
      { name := "g"
        path := ⟨["g"]⟩
        filename := ""
        deppath := ""
        description := []
        line := none
        deprecated := .flagFalse
        examples := []
        see_alsos := []
        properties := []
        exported_from := ⟨["./", ""]⟩ }
    params := []
    type_params := []
    returns := [⟨[.xrefExternal "Promise" "es" "lib.ts" "Promise"], []⟩]
    is_async := true
    memberProps := {} }

/-- C7 witness: the conversion of `sig7` succeeds and carries
`is_async` per the Promise test. -/
theorem c7_is_async_promise_heuristic_witness :
    Signature.to_ir 20 conv0 sig7 = .ok (some fun7, []) ∧
    fun7.is_async = is_async_type sig7.type :=
  ⟨by rfl, (c7_is_async_promise_heuristic 20 conv0 sig7 fun7 [] (by rfl)).1⟩

/-- C6: the attribute produced for an accessor is typed from the getter
signature's return type when a getter is present, else from the type of
the setter signature's first (sole) parameter; a setter with no
parameters raises `IndexError`, and an accessor with neither signature
fails the `assert self.setSignature`. -/
theorem c6_accessor_type_source (fuel : Nat) (c : Converter) (info : NodeInfo)
    (ch : List Node) :
    (∀ (gs : Signature) (ss : Option Signature) (attr : IRAttribute)
        (ns : List Node),
      Accessor.to_ir fuel c info ch (some gs) ss = .ok (attr, ns) →
      render_name fuel c gs.type = .ok attr.type) ∧
    (∀ (ss : Signature) (p : Param) (ps : List Param) (attr : IRAttribute)
        (ns : List Node),
      ss.parameters = p :: ps →
      Accessor.to_ir fuel c info ch none (some ss) = .ok (attr, ns) →
      render_name fuel c p.type = .ok attr.type) ∧
    (∀ ss : Signature, ss.parameters = [] →
      Accessor.to_ir fuel c info ch none (some ss) = .error .indexError) ∧
    Accessor.to_ir fuel c info ch none none = .error .assertFail := by
  refine ⟨?_, ?_, ?_, ?_⟩
  · intro gs ss attr ns h
    unfold Accessor.to_ir at h
    rcases except_bind_ok.mp h with ⟨ty, hty, h⟩
    rcases except_bind_ok.mp h with ⟨rendered, hr, h⟩
    rcases except_bind_ok.mp h with ⟨tlp, _htlp, h⟩
    simp only [pure, Except.pure, Except.ok.injEq, Prod.mk.injEq] at hty h
    rw [← h.1, hty]
    exact hr
  · intro ss p ps attr ns hp h
    unfold Accessor.to_ir at h
    dsimp only at h
    rw [hp] at h
    rcases except_bind_ok.mp h with ⟨ty, hty, h⟩
    rcases except_bind_ok.mp h with ⟨rendered, hr, h⟩
    rcases except_bind_ok.mp h with ⟨tlp, _htlp, h⟩
    simp only [pure, Except.pure, Except.ok.injEq, Prod.mk.injEq] at hty h
    rw [← h.1, hty]
    exact hr
  · intro ss hp
    unfold Accessor.to_ir
    dsimp only
    rw [hp]
    rfl
  · rfl

/-- C6 witness setter signature: one parameter of type `number`. -/
def ss6 : Signature :=
  .mk { name := "v" } .setSig [] []
    [.mk {} none {} "v" (.intrinsic [] "number")] (.intrinsic [] "void")
    none {} []

/-- The `ir.Attribute` produced for the setter-only accessor of the C6
witness. -/
def attr6 : IRAttribute :=
  { tlp :=
      { name := "attr"
        path := ⟨["attr"]⟩
        filename := ""
        deppath := ""
        description := []
        line := none
        deprecated := .flagFalse
        examples := []
        see_alsos := []
        properties := []
        exported_from := ⟨["./", ""]⟩ }
    memberProps := {}
    type := [.str "number"] }

/-- C6 witness: a setter-only accessor's attribute is typed from the
setter's sole parameter. -/
theorem c6_accessor_type_source_witness :
    ss6.parameters = [Param.mk {} none {} "v" (.intrinsic [] "number")] ∧
    render_name 20 conv0 (Param.mk {} none {} "v"
      (TypeD.intrinsic [] "number")).type = .ok attr6.type :=
  ⟨rfl,
    (c6_accessor_type_source 20 conv0 { name := "attr", path := ["attr"] }
        []).2.1 ss6 (Param.mk {} none {} "v" (.intrinsic [] "number")) []
      attr6 [] rfl (by rfl)⟩

/-- Distinct-path entries are determined by their path. -/
theorem pairwise_ne_path_unique {V : Type} {l : List (List String × V)}
    (hp : List.Pairwise (fun a b => a.1 ≠ b.1) l) {pv e : List String × V}
    (h1 : pv ∈ l) (h2 : e ∈ l) (h3 : e.1 = pv.1) : e = pv := by
  induction l with
  | nil => cases h1
  | cons hd tl ih =>
    rcases List.pairwise_cons.mp hp with ⟨hhd, htl⟩
    rcases List.mem_cons.mp h1 with h1e | h1t
    · rcases List.mem_cons.mp h2 with h2e | h2t
      · rw [h1e, h2e]
      · exact absurd (h3.trans (congrArg Prod.fst h1e))
          (Ne.symm (hhd e h2t))
    · rcases List.mem_cons.mp h2 with h2e | h2t
      · exact absurd ((congrArg Prod.fst h2e).symm.trans h3) (hhd pv h1t)
      · exact ih htl h1t h2t

/-- C4: the `get`/`add` contract of the suffix index: `SuffixNotFound`
when no stored path ends with the queried suffix, the unique value on a
single match, `SuffixAmbiguous` on several matches none of which the
suffix singles out exactly, and — for pairwise-distinct stored paths —
the round trip: `get` on a full inserted path returns the inserted
value (the degenerate exact-match case). -/
theorem c4_suffix_tree_get_contract {V : Type} (t : SuffixTree V)
    (suffix : List String) :
    (t.matches suffix = [] → t.get suffix = .suffixNotFound) ∧
    (∀ e, t.matches suffix = [e] → t.get suffix = .found e.2) ∧
    (∀ e1 e2 rest, t.matches suffix = e1 :: e2 :: rest →
      (∀ e ∈ t.matches suffix, e.1 ≠ suffix) →
      t.get suffix = .suffixAmbiguous) ∧
    (List.Pairwise (fun a b => a.1 ≠ b.1) t.entries →
      ∀ (p : List String) (v : V), (p, v) ∈ t.entries →
        t.get p = .found v) := by
  refine ⟨?_, ?_, ?_, ?_⟩
  · intro h
    unfold SuffixTree.get
    rw [h]
  · intro e h
    unfold SuffixTree.get
    rw [h]
  · intro e1 e2 rest h hne
    unfold SuffixTree.get
    rw [h]
    have : (e1 :: e2 :: rest).find? (fun e => e.1 = suffix) = none := by
      rw [List.find?_eq_none]
      intro x hx
      simpa using hne x (h ▸ hx)
    simp [this]
  · intro hp p v hm
    have hmem : (p, v) ∈ t.matches p := by
      unfold SuffixTree.matches
      rw [List.mem_filter]
      exact ⟨hm, by simp [List.suffix_refl]⟩
    unfold SuffixTree.get
    cases hmatch : t.matches p with
    | nil => rw [hmatch] at hmem; cases hmem
    | cons e es =>
      cases es with
      | nil =>
        rw [hmatch] at hmem
        rcases List.mem_singleton.mp hmem with h
        rw [← h]
      | cons e2 es2 =>
        have hfind : (t.matches p).find? (fun e => e.1 = p) ≠ none := by
          intro hnone
          rw [List.find?_eq_none] at hnone
          exact absurd (by simp) (hnone (p, v) hmem)
        cases hfound : (t.matches p).find? (fun e => e.1 = p) with
        | none => exact absurd hfound hfind
        | some e' =>
          have he'mem : e' ∈ t.matches p := List.mem_of_find?_eq_some hfound
          have he'p : e'.1 = p := by
            have := List.find?_some hfound
            simpa using this
          have he'entries : e' ∈ t.entries := by
            unfold SuffixTree.matches at he'mem
            exact (List.mem_filter.mp he'mem).1
          have he'eq : e' = (p, v) :=
            pairwise_ne_path_unique hp hm he'entries he'p
          rw [hmatch] at hfound
          rw [hfound, he'eq]

/-- C4 witness tree: the two example paths of §8 sharing the suffix
`c`. -/
def t4 : SuffixTree Nat :=
  SuffixTree.add_many {} [(["a/", "b/", "c"], 1), (["a/", "d/", "c"], 2)]

/-- C4 witness: round trip on a full inserted path of `t4`. -/
theorem c4_suffix_tree_get_contract_witness :
    List.Pairwise (fun (a b : List String × Nat) => a.1 ≠ b.1) t4.entries ∧
    (["a/", "b/", "c"], 1) ∈ t4.entries ∧
    t4.get ["a/", "b/", "c"] = .found 1 :=
  ⟨by decide, by decide,
    (c4_suffix_tree_get_contract t4 ["a/", "b/", "c"]).2.2.2 (by decide)
      ["a/", "b/", "c"] 1 (by decide)⟩

/-- C9 failing input: the JSON tree against which the two error
locations of `exc9` resolve, with a known discriminator at each parent
location. -/
def json9 : Json :=
  .obj [("a", .obj [("b", .obj [("c", .obj [("d", .obj
    [("kindString", .str "Class"),
     ("e", .obj [("kindString", .str "Class")])])])])])]

/-- C9 failing input: a validation failure whose two error locations
have parent locations `[a,b,c,d,e]` and its strict prefix
`[a,b,c,d]`. -/
def exc9 : ValidationError :=
  { errors :=
      [⟨[.str "a", .str "b", .str "c", .str "d", .str "e", .str "x"], "m1"⟩,
       ⟨[.str "a", .str "b", .str "c", .str "d", .str "y"], "m2"⟩] }

/-- C9 failing input: a re-validation stub that reports one localized
error for every subtree it is asked about. -/
def cp9 : String → String → Json → Option (List PErr) :=
  fun _ _ _ => some [⟨[], "sub"⟩]

def c9loc1 : List JKey := [.str "a", .str "b", .str "c", .str "d", .str "e"]

def c9loc2 : List JKey := [.str "a", .str "b", .str "c", .str "d"]

def c9msg : String := "sub\n  Discriminator: kindString = Class\n"

/-- C9: the narrowing routine does not keep only the deepest failing
locations: because `fix_exc_errors` marks prefixes as handled with
`for i in range(len(s))` — ranging over the number of distinct
locations instead of the location's length, contradicting its own
`Add all prefixes of the current loc to handled` comment — the locaton
`[a,b,c,d]`, a strict prefix of the reported `[a,b,c,d,e]`, is
re-validated and reported as well (while the original exception's
`errors` are preserved and the failure outcome is unchanged). -/
theorem c9_narrowing_keeps_prefix_location :
    fix_exc_errors cp9 json9 exc9 =
      .ok { errors := exc9.errors,
            errorCache := some [⟨c9loc1, c9msg⟩, ⟨c9loc2, c9msg⟩] } ∧
    c9loc2 <+: c9loc1 ∧ c9loc2 ≠ c9loc1 :=
  ⟨by rfl, by decide, by decide⟩

end SphinxJs
